import Mathlib

/-!
Shallow embedding of the simple-nft-indexer repository (TypeScript) in Lean 4.

The embedding follows the source files:
  * `src/types.ts`    — data structures, configuration, error taxonomy, DB key layout
  * `src/db.ts`       — the embedded (LevelDB) storage variant
  * `src/db/index.ts` — the relational (PostgreSQL) storage variant
  * `src/indexer.ts`  — the sync engine (historical sync, block-range retry loop,
                        live polling, transfer-event processing)

Machine integers are modelled as `Nat` (block numbers, timestamps, delays are
non-negative JS numbers well below 2^53, where JS arithmetic is exact).
Asynchronous effects are modelled by explicit state passing and by pure
functions from the outcome of each external call (RPC query, DB read) to the
action the code takes next.
-/

namespace NFTIndexer

/-! ## types.ts -/

/-- `IndexerErrorType` enum from `src/types.ts`. -/
inductive IndexerErrorType where
  | NETWORK_ERROR
  | CONTRACT_ERROR
  | DATABASE_ERROR
  | INVALID_INPUT
deriving DecidableEq, Repr

/-- `IndexerError` class from `src/types.ts` (the wrapped original error is
modelled by its message). -/
structure IndexerError where
  type : IndexerErrorType
  message : String
deriving DecidableEq, Repr

/-- `Required<IndexerConfig>`: the configuration after merging with defaults,
from `src/types.ts`. -/
structure IndexerConfig where
  startBlock : Nat
  batchSize : Nat
  cacheTimeout : Nat
  maxConcurrent : Nat
  dbPath : String
  pollInterval : Nat
deriving DecidableEq, Repr

/-- `DEFAULT_CONFIG` from `src/types.ts`. -/
def DEFAULT_CONFIG : IndexerConfig :=
  { startBlock := 0
    batchSize := 1000
    cacheTimeout := 3600000
    maxConcurrent := 3
    dbPath := "./indexer-db"
    pollInterval := 12000 }

/-- `Partial<IndexerConfig>`: the user-supplied configuration, every field
optional, from `src/types.ts`. -/
structure PartialIndexerConfig where
  startBlock : Option Nat := none
  batchSize : Option Nat := none
  cacheTimeout : Option Nat := none
  maxConcurrent : Option Nat := none
  dbPath : Option String := none
  pollInterval : Option Nat := none
deriving DecidableEq, Repr

/-- The constructor's spread merge `{ ...DEFAULT_CONFIG, ...config }` from
`src/indexer.ts` line 29: a supplied field wins, an absent one falls back to
the default. -/
def mergeConfig (config : PartialIndexerConfig) : IndexerConfig :=
  { startBlock := config.startBlock.getD DEFAULT_CONFIG.startBlock
    batchSize := config.batchSize.getD DEFAULT_CONFIG.batchSize
    cacheTimeout := config.cacheTimeout.getD DEFAULT_CONFIG.cacheTimeout
    maxConcurrent := config.maxConcurrent.getD DEFAULT_CONFIG.maxConcurrent
    dbPath := config.dbPath.getD DEFAULT_CONFIG.dbPath
    pollInterval := config.pollInterval.getD DEFAULT_CONFIG.pollInterval }

/-- `TokenOwnership` from `src/types.ts`. -/
structure TokenOwnership where
  tokenId : String
  owner : String
  timestamp : Nat
deriving DecidableEq, Repr

/-- `TokenTransfer` from `src/types.ts` (`from` and `to` are Lean keywords,
so the fields are named `fromAddr` and `toAddr`). -/
structure TokenTransfer where
  tokenId : String
  fromAddr : String
  toAddr : String
  timestamp : Nat
  blockNumber : Nat
  transactionHash : String
deriving DecidableEq, Repr

/-- `TokenMetadata` from `src/types.ts` (the optional decoded JSON document is
modelled as an opaque optional string). -/
structure TokenMetadata where
  tokenId : String
  uri : String
  metadata : Option String := none
  lastUpdated : Nat
deriving DecidableEq, Repr

/-! ## Storage key layout (`DB_PREFIXES` in `src/types.ts`, key construction
in `src/db.ts`).  The five prefixes are `own:`, `transfer:`, `meta:`,
`tokens:`, `sync:`. -/

/-- Key written/read for token ownership: `` `${DB_PREFIXES.OWNERSHIP}${tokenId}` ``
(`src/db.ts` lines 39 and 45). -/
def ownershipKey (tokenId : String) : String :=
  "own:" ++ tokenId

/-- Key written for a transfer record:
`` `${DB_PREFIXES.TRANSFER}${transfer.tokenId}:${transfer.blockNumber}:${transfer.transactionHash}` ``
(`src/db.ts` line 59). -/
def transferKey (tokenId : String) (blockNumber : Nat) (transactionHash : String) : String :=
  "transfer:" ++ (tokenId ++ (":" ++ (toString blockNumber ++ (":" ++ transactionHash))))

/-- Key written/read for token metadata: `` `${DB_PREFIXES.METADATA}${tokenId}` ``
(`src/db.ts` lines 84 and 89). -/
def metadataKey (tokenId : String) : String :=
  "meta:" ++ tokenId

/-- Key written/read for the owner index: `` `${DB_PREFIXES.OWNER_TOKENS}${owner}` ``
(`src/db.ts` lines 104 and 127). -/
def ownerTokensKey (owner : String) : String :=
  "tokens:" ++ owner

/-- Key written/read for the sync cursor: `` `${DB_PREFIXES.SYNC_STATE}last` ``
(`src/db.ts` lines 141 and 146). -/
def syncStateKey : String :=
  "sync:" ++ "last"

/-- The set of keys the embedded (LevelDB) variant ever passes to `db.put` or
`db.get` in `src/db.ts` (the transfer-namespace iterator in
`getTokenTransfers` only reads back keys previously written by
`addTransfer`). -/
inductive UsedKey : String → Prop where
  | ownership (tokenId : String) : UsedKey (ownershipKey tokenId)
  | transfer (tokenId : String) (blockNumber : Nat) (transactionHash : String) :
      UsedKey (transferKey tokenId blockNumber transactionHash)
  | metadata (tokenId : String) : UsedKey (metadataKey tokenId)
  | ownerIndex (owner : String) : UsedKey (ownerTokensKey owner)
  | syncCursor : UsedKey syncStateKey

/-- Spec form `own:<tokenId>`. -/
def isOwnForm (k : String) : Prop := ∃ tokenId, k = "own:" ++ tokenId

/-- Spec form `transfer:<tokenId>:<blockNumber>:<transactionHash>`. -/
def isTransferForm (k : String) : Prop :=
  ∃ tokenId blockNumber transactionHash,
    k = "transfer:" ++ (tokenId ++ (":" ++ (toString (blockNumber : Nat) ++ (":" ++ transactionHash))))

/-- Spec form `meta:<tokenId>`. -/
def isMetaForm (k : String) : Prop := ∃ tokenId, k = "meta:" ++ tokenId

/-- Spec form `tokens:<owner>`. -/
def isTokensForm (k : String) : Prop := ∃ owner, k = "tokens:" ++ owner

/-- Spec form `sync:last`. -/
def isSyncForm (k : String) : Prop := k = "sync:last"

/-- The data of a concatenation of strings is the concatenation of their data. -/
theorem data_append (a b : String) : (a ++ b).data = a.data ++ b.data := by
  cases a; cases b; rfl

/-- First two characters of a key, used to discriminate the five namespaces
(`ow`, `tr`, `me`, `to`, `sy` are pairwise distinct). -/
def key2 (k : String) : List Char := k.data.take 2

theorem key2_of_append (p s : String) (c1 c2 : Char) (l : List Char)
    (h : p.data = c1 :: c2 :: l) : key2 (p ++ s) = [c1, c2] := by
  unfold key2
  rw [data_append, h]
  rfl

theorem key2_ownershipKey (tokenId : String) :
    key2 (ownershipKey tokenId) = ['o', 'w'] :=
  key2_of_append _ _ _ _ _ rfl

theorem key2_transferKey (tokenId : String) (blockNumber : Nat) (transactionHash : String) :
    key2 (transferKey tokenId blockNumber transactionHash) = ['t', 'r'] :=
  key2_of_append _ _ _ _ _ rfl

theorem key2_metadataKey (tokenId : String) :
    key2 (metadataKey tokenId) = ['m', 'e'] :=
  key2_of_append _ _ _ _ _ rfl

theorem key2_ownerTokensKey (owner : String) :
    key2 (ownerTokensKey owner) = ['t', 'o'] :=
  key2_of_append _ _ _ _ _ rfl

theorem key2_syncStateKey : key2 syncStateKey = ['s', 'y'] := by
  rfl

theorem isOwnForm_key2 {k : String} (h : isOwnForm k) : key2 k = ['o', 'w'] := by
  obtain ⟨t, rfl⟩ := h
  exact key2_of_append _ _ _ _ _ rfl

theorem isTransferForm_key2 {k : String} (h : isTransferForm k) : key2 k = ['t', 'r'] := by
  obtain ⟨t, b, x, rfl⟩ := h
  exact key2_of_append _ _ _ _ _ rfl

theorem isMetaForm_key2 {k : String} (h : isMetaForm k) : key2 k = ['m', 'e'] := by
  obtain ⟨t, rfl⟩ := h
  exact key2_of_append _ _ _ _ _ rfl

theorem isTokensForm_key2 {k : String} (h : isTokensForm k) : key2 k = ['t', 'o'] := by
  obtain ⟨o, rfl⟩ := h
  exact key2_of_append _ _ _ _ _ rfl

theorem isSyncForm_key2 {k : String} (h : isSyncForm k) : key2 k = ['s', 'y'] := by
  subst h
  rfl

/-- The first two characters of a key determine which of the five namespace
forms it can possibly satisfy. -/
theorem key2_discriminates {k : String} {cs : List Char} (hk : key2 k = cs) :
    (cs ≠ ['o', 'w'] → ¬ isOwnForm k) ∧
    (cs ≠ ['t', 'r'] → ¬ isTransferForm k) ∧
    (cs ≠ ['m', 'e'] → ¬ isMetaForm k) ∧
    (cs ≠ ['t', 'o'] → ¬ isTokensForm k) ∧
    (cs ≠ ['s', 'y'] → ¬ isSyncForm k) :=
  ⟨fun hne h => hne (hk.symm.trans (isOwnForm_key2 h)),
   fun hne h => hne (hk.symm.trans (isTransferForm_key2 h)),
   fun hne h => hne (hk.symm.trans (isMetaForm_key2 h)),
   fun hne h => hne (hk.symm.trans (isTokensForm_key2 h)),
   fun hne h => hne (hk.symm.trans (isSyncForm_key2 h))⟩

/-- Claim C9: every key the embedded (LevelDB) variant reads or writes has
exactly one of the forms `own:<tokenId>`,
`transfer:<tokenId>:<blockNumber>:<transactionHash>`, `meta:<tokenId>`,
`tokens:<owner>`, `sync:last`. -/
theorem claim_C9_key_layout (k : String) (hk : UsedKey k) :
    (isOwnForm k ∧ ¬isTransferForm k ∧ ¬isMetaForm k ∧ ¬isTokensForm k ∧ ¬isSyncForm k) ∨
    (isTransferForm k ∧ ¬isOwnForm k ∧ ¬isMetaForm k ∧ ¬isTokensForm k ∧ ¬isSyncForm k) ∨
    (isMetaForm k ∧ ¬isOwnForm k ∧ ¬isTransferForm k ∧ ¬isTokensForm k ∧ ¬isSyncForm k) ∨
    (isTokensForm k ∧ ¬isOwnForm k ∧ ¬isTransferForm k ∧ ¬isMetaForm k ∧ ¬isSyncForm k) ∨
    (isSyncForm k ∧ ¬isOwnForm k ∧ ¬isTransferForm k ∧ ¬isMetaForm k ∧ ¬isTokensForm k) := by
  cases hk with
  | ownership tokenId =>
      have d := key2_discriminates (key2_ownershipKey tokenId)
      exact Or.inl ⟨⟨tokenId, rfl⟩, d.2.1 (by decide), d.2.2.1 (by decide),
        d.2.2.2.1 (by decide), d.2.2.2.2 (by decide)⟩
  | transfer tokenId blockNumber transactionHash =>
      have d := key2_discriminates (key2_transferKey tokenId blockNumber transactionHash)
      exact Or.inr (Or.inl ⟨⟨tokenId, blockNumber, transactionHash, rfl⟩, d.1 (by decide),
        d.2.2.1 (by decide), d.2.2.2.1 (by decide), d.2.2.2.2 (by decide)⟩)
  | metadata tokenId =>
      have d := key2_discriminates (key2_metadataKey tokenId)
      exact Or.inr (Or.inr (Or.inl ⟨⟨tokenId, rfl⟩, d.1 (by decide), d.2.1 (by decide),
        d.2.2.2.1 (by decide), d.2.2.2.2 (by decide)⟩))
  | ownerIndex owner =>
      have d := key2_discriminates (key2_ownerTokensKey owner)
      exact Or.inr (Or.inr (Or.inr (Or.inl ⟨⟨owner, rfl⟩, d.1 (by decide), d.2.1 (by decide),
        d.2.2.1 (by decide), d.2.2.2.2 (by decide)⟩)))
  | syncCursor =>
      have d := key2_discriminates key2_syncStateKey
      exact Or.inr (Or.inr (Or.inr (Or.inr ⟨rfl, d.1 (by decide), d.2.1 (by decide),
        d.2.2.1 (by decide), d.2.2.2.1 (by decide)⟩)))

/-- Witness for claim C9 at the concrete key `own:42`. -/
theorem claim_C9_key_layout_witness :
    UsedKey (ownershipKey "42") ∧
    ((isOwnForm (ownershipKey "42") ∧ ¬isTransferForm (ownershipKey "42") ∧
      ¬isMetaForm (ownershipKey "42") ∧ ¬isTokensForm (ownershipKey "42") ∧
      ¬isSyncForm (ownershipKey "42")) ∨
     (isTransferForm (ownershipKey "42") ∧ ¬isOwnForm (ownershipKey "42") ∧
      ¬isMetaForm (ownershipKey "42") ∧ ¬isTokensForm (ownershipKey "42") ∧
      ¬isSyncForm (ownershipKey "42")) ∨
     (isMetaForm (ownershipKey "42") ∧ ¬isOwnForm (ownershipKey "42") ∧
      ¬isTransferForm (ownershipKey "42") ∧ ¬isTokensForm (ownershipKey "42") ∧
      ¬isSyncForm (ownershipKey "42")) ∨
     (isTokensForm (ownershipKey "42") ∧ ¬isOwnForm (ownershipKey "42") ∧
      ¬isTransferForm (ownershipKey "42") ∧ ¬isMetaForm (ownershipKey "42") ∧
      ¬isSyncForm (ownershipKey "42")) ∨
     (isSyncForm (ownershipKey "42") ∧ ¬isOwnForm (ownershipKey "42") ∧
      ¬isTransferForm (ownershipKey "42") ∧ ¬isMetaForm (ownershipKey "42") ∧
      ¬isTokensForm (ownershipKey "42"))) :=
  ⟨UsedKey.ownership "42", claim_C9_key_layout (ownershipKey "42") (UsedKey.ownership "42")⟩

/-! ## The embedded (LevelDB) variant, `src/db.ts` -/

/-- Outcome of a single `db.get` call on the LevelDB handle: the stored value,
a not-found miss, or any other storage failure. -/
inductive LevelGetResult where
  | found (data : String)
  | notFound
  | errored (message : String)
deriving DecidableEq, Repr

/-- `parseInt(data, 10)` as applied in `IndexerDB.getLastSyncedBlock`
(`src/db.ts` line 147).  `setSyncState` only ever stores
`blockNumber.toString()`, i.e. a decimal numeral, on which `parseInt`
coincides with decimal parsing. -/
def parseInt10 (s : String) : Nat :=
  (s.toNat?).getD 0

namespace IndexerDB

/-- `IndexerDB.getLastSyncedBlock` from `src/db.ts` lines 144-156, as a
function of what the store returns for the key `sync:last`: a found value is
parsed, a not-found miss yields 0, and any other failure is rethrown as a
`DATABASE_ERROR` `IndexerError`. -/
def getLastSyncedBlock (store : String → LevelGetResult) : Except IndexerError Nat :=
  match store syncStateKey with
  | .found d => .ok (parseInt10 d)
  | .notFound => .ok 0
  | .errored _ =>
      .error { type := IndexerErrorType.DATABASE_ERROR
               message := "Failed to get last synced block" }

end IndexerDB

/-- A store holding no persisted sync state (every read misses). -/
def emptyStore : String → LevelGetResult := fun _ => LevelGetResult.notFound

/-! ## `syncHistoricalData`, `src/indexer.ts` lines 94-115

The loop body performs three effects per window: `processBlockRange(i, endBlock)`,
`setSyncState(endBlock)`, and `emitEvent("sync", {current: endBlock, target})`.
The loop is modelled as the list of these actions in execution order. -/

/-- One effect of the historical-sync loop. -/
inductive SyncAction where
  | processRange (startBlock endBlock : Nat)
  | setSync (blockNumber : Nat)
  | emitSync (current target : Nat)
deriving DecidableEq, Repr

/-- `const endBlock = Math.min(i + this.config.batchSize - 1, currentBlock)`
(`src/indexer.ts` line 108). -/
def windowEnd (i currentBlock batchSize : Nat) : Nat :=
  min (i + batchSize - 1) currentBlock

/-- The `for (let i = startBlock; i <= currentBlock; i += batchSize)` loop of
`syncHistoricalData` (`src/indexer.ts` lines 107-112), as the list of effects
it performs.  The `0 < batchSize` conjunct makes the model total; with
`batchSize = 0` the JavaScript loop would not terminate (the default is
1000). -/
def syncLoop (i currentBlock batchSize : Nat) : List SyncAction :=
  if i ≤ currentBlock ∧ 0 < batchSize then
    SyncAction.processRange i (windowEnd i currentBlock batchSize) ::
    SyncAction.setSync (windowEnd i currentBlock batchSize) ::
    SyncAction.emitSync (windowEnd i currentBlock batchSize) currentBlock ::
    syncLoop (i + batchSize) currentBlock batchSize
  else []
termination_by currentBlock + 1 - i
decreasing_by omega

/-- `syncHistoricalData` (`src/indexer.ts` lines 94-115) given the persisted
cursor `lastSynced` and the chain height `currentBlock`:
`startBlock = Math.max(config.startBlock, lastSynced + 1)`, early return when
`startBlock >= currentBlock`, otherwise the batched loop. -/
def syncHistoricalData (configStartBlock batchSize lastSynced currentBlock : Nat) :
    List SyncAction :=
  if currentBlock ≤ max configStartBlock (lastSynced + 1) then []
  else syncLoop (max configStartBlock (lastSynced + 1)) currentBlock batchSize

/-- Every `processRange a b` the loop performs has `i ≤ a` and `b ≤ currentBlock`. -/
theorem syncLoop_processRange_lb (i c bs : Nat) :
    ∀ a b : Nat, SyncAction.processRange a b ∈ syncLoop i c bs → i ≤ a ∧ b ≤ c := by
  intro a b h
  rw [syncLoop] at h
  by_cases hc : i ≤ c ∧ 0 < bs
  · rw [if_pos hc] at h
    simp only [List.mem_cons] at h
    rcases h with h | h | h | h
    · injection h with h1 h2
      subst h1; subst h2
      unfold windowEnd
      omega
    · exact SyncAction.noConfusion h
    · exact SyncAction.noConfusion h
    · have := syncLoop_processRange_lb (i + bs) c bs a b h
      omega
  · rw [if_neg hc] at h
    simp at h
termination_by c + 1 - i
decreasing_by omega

/-- The first action of a nonempty loop processes the window starting at `i`. -/
theorem syncLoop_head (i c bs : Nat) (a b : Nat)
    (h : (syncLoop i c bs).head? = some (SyncAction.processRange a b)) :
    a = i := by
  rw [syncLoop] at h
  by_cases hc : i ≤ c ∧ 0 < bs
  · rw [if_pos hc] at h
    simp only [List.head?_cons, Option.some.injEq] at h
    injection h with h1 h2
    exact h1.symm
  · rw [if_neg hc] at h
    simp at h

/-- Immediately after each `processRange a b` the loop persists the cursor `b`. -/
theorem syncLoop_setSync_follows (i c bs : Nat) (n a b : Nat)
    (h : (syncLoop i c bs).get? n = some (SyncAction.processRange a b)) :
    (syncLoop i c bs).get? (n + 1) = some (SyncAction.setSync b) := by
  rw [syncLoop] at h ⊢
  by_cases hc : i ≤ c ∧ 0 < bs
  · rw [if_pos hc] at h ⊢
    rcases n with _ | _ | _ | n
    · simp only [List.get?_cons_zero, Option.some.injEq] at h
      injection h with h1 h2
      subst h2
      rfl
    · simp only [List.get?_cons_succ, List.get?_cons_zero, Option.some.injEq] at h
      exact SyncAction.noConfusion h
    · simp only [List.get?_cons_succ, List.get?_cons_zero, Option.some.injEq] at h
      exact SyncAction.noConfusion h
    · simp only [List.get?_cons_succ] at h ⊢
      exact syncLoop_setSync_follows (i + bs) c bs n a b h
  · rw [if_neg hc] at h
    simp at h
termination_by c + 1 - i
decreasing_by omega

/-- If `syncHistoricalData` processes anything, its first processed window
starts at `max configStartBlock (lastSynced + 1)`. -/
theorem syncHistoricalData_head (configStartBlock batchSize lastSynced currentBlock a b : Nat)
    (h : (syncHistoricalData configStartBlock batchSize lastSynced currentBlock).head? =
      some (SyncAction.processRange a b)) :
    a = max configStartBlock (lastSynced + 1) := by
  unfold syncHistoricalData at h
  by_cases hc : currentBlock ≤ max configStartBlock (lastSynced + 1)
  · rw [if_pos hc] at h; simp at h
  · rw [if_neg hc] at h
    exact syncLoop_head _ _ _ a b h

/-- Every window `syncHistoricalData` processes starts at or above
`max configStartBlock (lastSynced + 1)`. -/
theorem syncHistoricalData_lb (configStartBlock batchSize lastSynced currentBlock a b : Nat)
    (h : SyncAction.processRange a b ∈
      syncHistoricalData configStartBlock batchSize lastSynced currentBlock) :
    max configStartBlock (lastSynced + 1) ≤ a := by
  unfold syncHistoricalData at h
  by_cases hc : currentBlock ≤ max configStartBlock (lastSynced + 1)
  · rw [if_pos hc] at h; simp at h
  · rw [if_neg hc] at h
    exact (syncLoop_processRange_lb _ _ _ a b h).1

/-- Claim C1: for every historical window `[a,b]` that `syncHistoricalData`
applies, the cursor persisted via `setSyncState` immediately after the window
is processed equals `b`; the first block processed is
`max(configuredStartBlock, cursor+1)`; and no block at or below the persisted
cursor is ever inside a processed window. -/
theorem claim_C1_cursor_invariant (configStartBlock batchSize lastSynced currentBlock : Nat) :
    (∀ n a b,
      (syncHistoricalData configStartBlock batchSize lastSynced currentBlock).get? n =
        some (SyncAction.processRange a b) →
      (syncHistoricalData configStartBlock batchSize lastSynced currentBlock).get? (n + 1) =
        some (SyncAction.setSync b)) ∧
    (∀ a b,
      (syncHistoricalData configStartBlock batchSize lastSynced currentBlock).head? =
        some (SyncAction.processRange a b) →
      a = max configStartBlock (lastSynced + 1)) ∧
    (∀ a b blk,
      SyncAction.processRange a b ∈
        syncHistoricalData configStartBlock batchSize lastSynced currentBlock →
      blk ≤ lastSynced → ¬ (a ≤ blk ∧ blk ≤ b)) := by
  refine ⟨?_, ?_, ?_⟩
  · intro n a b h
    unfold syncHistoricalData at h ⊢
    by_cases hc : currentBlock ≤ max configStartBlock (lastSynced + 1)
    · rw [if_pos hc] at h; simp at h
    · rw [if_neg hc] at h ⊢
      exact syncLoop_setSync_follows _ _ _ n a b h
  · intro a b h
    exact syncHistoricalData_head _ _ _ _ a b h
  · intro a b blk h hblk
    have hlb := syncHistoricalData_lb _ _ _ _ a b h
    omega

/-- Claim C10: against a store with no persisted sync state,
`getLastSyncedBlock` returns 0, the first block queried is
`max(configuredStartBlock, 1)`, and with the default configuration
(`startBlock = 0`) block 0 is never included in any historical range query. -/
theorem claim_C10_fresh_store (configStartBlock batchSize currentBlock : Nat) :
    IndexerDB.getLastSyncedBlock emptyStore = Except.ok 0 ∧
    (∀ a b,
      (syncHistoricalData configStartBlock batchSize 0 currentBlock).head? =
        some (SyncAction.processRange a b) →
      a = max configStartBlock 1) ∧
    (∀ a b,
      SyncAction.processRange a b ∈
        syncHistoricalData DEFAULT_CONFIG.startBlock DEFAULT_CONFIG.batchSize 0 currentBlock →
      ¬ (a ≤ 0 ∧ 0 ≤ b)) := by
  refine ⟨rfl, ?_, ?_⟩
  · intro a b h
    exact syncHistoricalData_head configStartBlock batchSize 0 currentBlock a b h
  · intro a b h
    have hlb := syncHistoricalData_lb DEFAULT_CONFIG.startBlock DEFAULT_CONFIG.batchSize 0
      currentBlock a b h
    omega

/-! ## `processBlockRange`, `src/indexer.ts` lines 117-200

Each iteration of the retry loop queries the RPC collaborator for the range
under a 30s deadline.  The model abstracts the outcome of one query attempt
and embeds, as a pure function, what the code does with that outcome. -/

/-- Outcome of one `queryFilter` attempt (under the 30s `timeout` race):
success, an error whose message contains `'timed out'` (the race lost to the
timer), or any other error. -/
inductive QueryOutcome where
  | success
  | timeoutErr
  | otherErr
deriving DecidableEq, Repr

/-- What one iteration of the retry loop does next. -/
inductive AttemptResult where
  /-- events processed, `return` at line 170 -/
  | done
  /-- `throw new IndexerError(NETWORK_ERROR, ...)` at lines 175-179 -/
  | failNetwork (startBlock endBlock : Nat)
  /-- recurse on the two sub-ranges at lines 190-191, each with the full
  (undecremented) `retries` budget -/
  | splitRetry (firstHalf secondHalf : Nat × Nat) (budget : Nat)
  /-- `await delay(backoff)` at line 197, then the next attempt -/
  | retryAfter (backoffMs : Nat)
deriving DecidableEq, Repr

/-- `const midPoint = Math.floor((endBlock - startBlock) / 2) + startBlock`
(`src/indexer.ts` line 188).  `Nat` subtraction and division agree with the
JavaScript expression whenever `startBlock ≤ endBlock`. -/
def midPoint (startBlock endBlock : Nat) : Nat :=
  (endBlock - startBlock) / 2 + startBlock

/-- The two recursive sub-ranges of a timeout split (`src/indexer.ts` lines
188-191): `[startBlock, midPoint]` and `[midPoint + 1, endBlock]`. -/
def splitRanges (startBlock endBlock : Nat) : (Nat × Nat) × (Nat × Nat) :=
  ((startBlock, midPoint startBlock endBlock), (midPoint startBlock endBlock + 1, endBlock))

/-- One iteration of the `for (let attempt = 1; attempt <= retries; attempt++)`
loop of `processBlockRange` (`src/indexer.ts` lines 128-199), as a function of
the attempt number and the query outcome:

* success → process the events and return;
* any error on the final attempt (`attempt === retries`) → throw a
  `NETWORK_ERROR`;
* a timeout error with attempts remaining → split at the midpoint and recurse
  on `[start, mid]` and `[mid+1, end]`, each with the full `retries` budget —
  with no condition on the size of the range;
* any other error with attempts remaining → wait
  `Math.min(2 ** attempt * 1000, 10000)` ms and retry. -/
def attemptStep (startBlock endBlock attempt retries : Nat) (outcome : QueryOutcome) :
    AttemptResult :=
  match outcome with
  | .success => .done
  | _ =>
    if attempt = retries then
      .failNetwork startBlock endBlock
    else if outcome = QueryOutcome.timeoutErr then
      .splitRetry (splitRanges startBlock endBlock).1 (splitRanges startBlock endBlock).2 retries
    else
      .retryAfter (min (2 ^ attempt * 1000) 10000)

/-- Claim C2: a timeout split on `[start,end]` with `start < end` produces
exactly `[start, mid]` and `[mid+1, end]` with
`mid = start + floor((end-start)/2)`; the two halves partition the original
range with no gap, no overlap and no duplicated block; in particular
`[100,200]` splits into exactly `[100,150]` and `[151,200]`. -/
theorem claim_C2_split_partition (startBlock endBlock attempt retries : Nat)
    (hlt : startBlock < endBlock) (hattempt : attempt ≠ retries) :
    (attemptStep startBlock endBlock attempt retries QueryOutcome.timeoutErr =
      AttemptResult.splitRetry (startBlock, midPoint startBlock endBlock)
        (midPoint startBlock endBlock + 1, endBlock) retries) ∧
    midPoint startBlock endBlock = startBlock + (endBlock - startBlock) / 2 ∧
    startBlock ≤ midPoint startBlock endBlock ∧
    midPoint startBlock endBlock < endBlock ∧
    (∀ blk : Nat,
      (startBlock ≤ blk ∧ blk ≤ endBlock) ↔
        ((startBlock ≤ blk ∧ blk ≤ midPoint startBlock endBlock) ∨
         (midPoint startBlock endBlock + 1 ≤ blk ∧ blk ≤ endBlock))) ∧
    (∀ blk : Nat,
      ¬ ((startBlock ≤ blk ∧ blk ≤ midPoint startBlock endBlock) ∧
         (midPoint startBlock endBlock + 1 ≤ blk ∧ blk ≤ endBlock))) ∧
    splitRanges 100 200 = ((100, 150), (151, 200)) := by
  refine ⟨?_, ?_, ?_, ?_, ?_, ?_, ?_⟩
  · unfold attemptStep
    rw [if_neg hattempt, if_pos rfl]
    rfl
  · unfold midPoint; omega
  · unfold midPoint; omega
  · unfold midPoint; omega
  · intro blk; unfold midPoint; omega
  · intro blk; unfold midPoint; omega
  · rfl

/-- Witness for claim C2 at the concrete range `[100, 200]`, attempt 1 of 3. -/
theorem claim_C2_split_partition_witness :
    (100 < 200 ∧ (1 : Nat) ≠ 3) ∧
    ((attemptStep 100 200 1 3 QueryOutcome.timeoutErr =
      AttemptResult.splitRetry (100, midPoint 100 200) (midPoint 100 200 + 1, 200) 3) ∧
    midPoint 100 200 = 100 + (200 - 100) / 2 ∧
    100 ≤ midPoint 100 200 ∧
    midPoint 100 200 < 200 ∧
    (∀ blk : Nat,
      (100 ≤ blk ∧ blk ≤ 200) ↔
        ((100 ≤ blk ∧ blk ≤ midPoint 100 200) ∨ (midPoint 100 200 + 1 ≤ blk ∧ blk ≤ 200))) ∧
    (∀ blk : Nat,
      ¬ ((100 ≤ blk ∧ blk ≤ midPoint 100 200) ∧ (midPoint 100 200 + 1 ≤ blk ∧ blk ≤ 200))) ∧
    splitRanges 100 200 = ((100, 150), (151, 200))) :=
  ⟨⟨by decide, by decide⟩, claim_C2_split_partition 100 200 1 3 (by decide) (by decide)⟩

/-- Claim C3 (failing input): the code splits a single-block range.  On the
range `[5,5]`, a timeout on attempt 1 of 3 is split into `[5,5]` and `[6,5]` —
the first sub-range is the unchanged input range (so persistent timeouts on a
single block recurse forever) and the second is empty — whereas the claim
states a range spanning a single block is never split.  A non-timeout failure
on the final attempt does fail with a `NETWORK_ERROR` as claimed. -/
theorem claim_C3_single_block_split :
    attemptStep 5 5 1 3 QueryOutcome.timeoutErr =
      AttemptResult.splitRetry (5, 5) (6, 5) 3 ∧
    (splitRanges 5 5).1 = (5, 5) ∧
    attemptStep 5 5 3 3 QueryOutcome.otherErr = AttemptResult.failNetwork 5 5 ∧
    attemptStep 5 5 3 3 QueryOutcome.timeoutErr = AttemptResult.failNetwork 5 5 := by
  refine ⟨rfl, rfl, rfl, rfl⟩

/-- Claim C4: when attempt `k` (1-based) fails with a non-timeout error and
`k` is not the final attempt, the wait before attempt `k+1` is exactly
`min(2^k * 1000, 10000)` milliseconds; concretely 2000ms after attempt 1,
4000ms after attempt 2, 8000ms after attempt 3 and 10000ms (capped) after
attempt 4. -/
theorem claim_C4_backoff (startBlock endBlock k retries : Nat) (hk : k ≠ retries) :
    attemptStep startBlock endBlock k retries QueryOutcome.otherErr =
      AttemptResult.retryAfter (min (2 ^ k * 1000) 10000) ∧
    min (2 ^ 1 * 1000) 10000 = 2000 ∧
    min (2 ^ 2 * 1000) 10000 = 4000 ∧
    min (2 ^ 3 * 1000) 10000 = 8000 ∧
    min (2 ^ 4 * 1000) 10000 = 10000 := by
  refine ⟨?_, by decide, by decide, by decide, by decide⟩
  unfold attemptStep
  rw [if_neg hk, if_neg (by decide : ¬ (QueryOutcome.otherErr = QueryOutcome.timeoutErr))]

/-- Witness for claim C4 at attempt 1 of 3 on the range `[100, 200]`. -/
theorem claim_C4_backoff_witness :
    (1 : Nat) ≠ 3 ∧
    (attemptStep 100 200 1 3 QueryOutcome.otherErr =
      AttemptResult.retryAfter (min (2 ^ 1 * 1000) 10000) ∧
    min (2 ^ 1 * 1000) 10000 = 2000 ∧
    min (2 ^ 2 * 1000) 10000 = 4000 ∧
    min (2 ^ 3 * 1000) 10000 = 8000 ∧
    min (2 ^ 4 * 1000) 10000 = 10000) :=
  ⟨by decide, claim_C4_backoff 100 200 1 3 (by decide)⟩

/-! ## `processTransferEvent`, `src/indexer.ts` lines 242-308 (embedded store)

The synchronous core of the handler: validate the raw event's arguments,
build the `TokenTransfer` record with the local ingestion time, write the
transfer record and the ownership record (which appends to the owner index),
and update the in-memory ownership cache.  Validation failure throws a plain
`Error('Invalid event arguments')`, which the handler's own `catch` block
logs, so the caller never sees it.  (The deferred metadata refresh scheduled
by `setTimeout` is a no-op on the embedded store's persistent state.) -/

/-- A raw `EventLog` as consumed by `processTransferEvent`: the decoded
argument list (absent when `event.args` is undefined) plus block position. -/
structure RawEvent where
  args : Option (List String)
  blockNumber : Nat
  transactionHash : String
deriving DecidableEq, Repr

/-- An error thrown inside the handler: either a plain `Error` or a typed
`IndexerError`. -/
inductive ThrownError where
  | generic (message : String)
  | indexer (type : IndexerErrorType) (message : String)
deriving DecidableEq, Repr

/-- The persistent state of the embedded store, one map per key namespace
(`own:`, `transfer:`, `tokens:`, `meta:`).  The transfer map is keyed by the
full composite key, the others by their suffix. -/
@[ext]
structure LevelState where
  owners : String → Option TokenOwnership
  transfers : String → Option TokenTransfer
  ownerTokens : String → Option (List String)
  metadata : String → Option TokenMetadata

/-- The indexer's state visible to `processTransferEvent` and
`getTokenMetadata`: the embedded store plus the two in-memory caches
(`src/indexer.ts` lines 20-21). -/
@[ext]
structure IndexerState where
  db : LevelState
  ownershipCache : String → Option String
  metadataCache : String → Option TokenMetadata

/-- The `db.put` of the ownership record inside `IndexerDB.setTokenOwner`
(`src/db.ts` line 39). -/
def putOwnership (st : LevelState) (tokenId owner : String) (timestamp : Nat) : LevelState :=
  { st with owners := fun k =>
      if k = tokenId then some { tokenId := tokenId, owner := owner, timestamp := timestamp }
      else st.owners k }

/-- `IndexerDB.addTokenToOwner` (`src/db.ts` lines 102-123): read the owner's
token list (missing key ↦ `[]`), append the token only if it is not already
present. -/
def addTokenToOwner (st : LevelState) (owner tokenId : String) : LevelState :=
  if tokenId ∈ (st.ownerTokens owner).getD [] then st
  else { st with ownerTokens := fun k =>
      if k = owner then some ((st.ownerTokens owner).getD [] ++ [tokenId])
      else st.ownerTokens k }

/-- `IndexerDB.setTokenOwner` (`src/db.ts` lines 37-41): write the ownership
record, then append to the owner index. -/
def setTokenOwner (st : LevelState) (tokenId owner : String) (timestamp : Nat) : LevelState :=
  addTokenToOwner (putOwnership st tokenId owner timestamp) owner tokenId

/-- `IndexerDB.addTransfer` (`src/db.ts` lines 58-61): write the transfer
record under its composite key. -/
def addTransfer (st : LevelState) (transfer : TokenTransfer) : LevelState :=
  { st with transfers := fun k =>
      if k = transferKey transfer.tokenId transfer.blockNumber transfer.transactionHash
      then some transfer else st.transfers k }

/-- `IndexerDB.setTokenMetadata` (`src/db.ts` lines 83-85): write the metadata
record under `meta:<tokenId>`. -/
def setTokenMetadata (st : LevelState) (tokenId : String) (metadata : TokenMetadata) :
    LevelState :=
  { st with metadata := fun k => if k = tokenId then some metadata else st.metadata k }

/-- Outcome of the external metadata fetch for one token: the
`contract.tokenURI` call followed (for `http` URIs) by the HTTP fetch of the
JSON document (`src/indexer.ts` lines 399-415), or any failure on that path —
a revert, a network error, or the deferred caller's 5000ms deadline.  The
JSON document is kept opaque. -/
inductive MetadataFetchOutcome where
  | fetched (uri : String) (doc : Option String)
  | failed (message : String)
deriving DecidableEq, Repr

/-- The contract-fetch tail of `getTokenMetadata` (`src/indexer.ts` lines
398-438), embedded-store path: on success build the `TokenMetadata` record
with `lastUpdated = Date.now()`, write it through `db.setTokenMetadata`
(line 418), cache it (line 428) and return it; on failure throw a
`CONTRACT_ERROR` with no state change (both writes sit after every fallible
step of the `try` block). -/
def fetchAndStoreMetadata (st : IndexerState) (tokenId : String) (now : Nat)
    (fetch : MetadataFetchOutcome) : IndexerState × Except IndexerError TokenMetadata :=
  match fetch with
  | .fetched uri doc =>
      let metadata : TokenMetadata :=
        { tokenId := tokenId, uri := uri, metadata := doc, lastUpdated := now }
      ({ st with
          db := setTokenMetadata st.db tokenId metadata
          metadataCache := fun k => if k = tokenId then some metadata else st.metadataCache k },
       Except.ok metadata)
  | .failed _ =>
      (st, Except.error { type := IndexerErrorType.CONTRACT_ERROR
                          message := "Failed to get metadata for token " ++ tokenId })

/-- The store-lookup stage of `getTokenMetadata` (`src/indexer.ts` lines
371-376), embedded-store path: a stored record fresher than `cacheTimeout` is
copied into the metadata cache and returned; otherwise fall through to the
contract fetch. -/
def getTokenMetadataFromStore (st : IndexerState) (tokenId : String)
    (cacheTimeout now : Nat) (fetch : MetadataFetchOutcome) :
    IndexerState × Except IndexerError TokenMetadata :=
  match st.db.metadata tokenId with
  | some stored =>
      if now - stored.lastUpdated < cacheTimeout then
        ({ st with metadataCache := fun k =>
              if k = tokenId then some stored else st.metadataCache k },
         Except.ok stored)
      else fetchAndStoreMetadata st tokenId now fetch
  | none => fetchAndStoreMetadata st tokenId now fetch

/-- `getTokenMetadata` (`src/indexer.ts` lines 363-439), embedded-store path:
cache check (entry fresher than `cacheTimeout` is returned with no writes),
then store check, then contract fetch.  `now` stands for `Date.now()` and
`fetch` for the outcome of the external fetch. -/
def getTokenMetadata (st : IndexerState) (tokenId : String) (cacheTimeout now : Nat)
    (fetch : MetadataFetchOutcome) : IndexerState × Except IndexerError TokenMetadata :=
  match st.metadataCache tokenId with
  | some cached =>
      if now - cached.lastUpdated < cacheTimeout then (st, Except.ok cached)
      else getTokenMetadataFromStore st tokenId cacheTimeout now fetch
  | none => getTokenMetadataFromStore st tokenId cacheTimeout now fetch

/-- The deferred metadata refresh `processTransferEvent` schedules
(`src/indexer.ts` lines 280-301), embedded-store path: run
`getTokenMetadata` (raced against the 5000ms timer, whose loss is one of the
`failed` outcomes); the `upsertNFT` call is skipped on this path (line 288
guards it with `!(this.db instanceof IndexerDB)`), and the callback's `catch`
swallows any error — so the state effect is exactly `getTokenMetadata`'s. -/
def deferredMetadataRefresh (st : IndexerState) (tokenId : String)
    (cacheTimeout now : Nat) (fetch : MetadataFetchOutcome) : IndexerState :=
  (getTokenMetadata st tokenId cacheTimeout now fetch).1

/-- The synchronous writes of `processTransferEvent` for one accepted event
(`src/indexer.ts` lines 261-275, embedded-store path): `db.addTransfer`, then
`db.setTokenOwner(tokenId, to, timestamp)`, then
`ownershipCache.set(tokenId, to)`. -/
def applyTransferWrites (st : IndexerState) (transfer : TokenTransfer) : IndexerState :=
  { st with
    db := setTokenOwner (addTransfer st.db transfer) transfer.tokenId transfer.toAddr
      transfer.timestamp
    ownershipCache := fun k =>
      if k = transfer.tokenId then some transfer.toAddr else st.ownershipCache k }

/-- `processTransferEvent` (`src/indexer.ts` lines 242-308), embedded-store
path.  Returns the updated state and the error (if any) that the handler's
own `catch` block intercepted and logged; `none` means the event was
accepted.  On rejection the state is untouched, because validation precedes
every write.  An accepted event performs the synchronous writes and then the
deferred metadata refresh (whose fetch outcome is `fetch`). -/
def processTransferEvent (st : IndexerState) (e : RawEvent) (now cacheTimeout : Nat)
    (fetch : MetadataFetchOutcome) : IndexerState × Option ThrownError :=
  match e.args with
  | some (fromAddr :: toAddr :: tokenId :: _) =>
      let transfer : TokenTransfer :=
        { tokenId := tokenId, fromAddr := fromAddr, toAddr := toAddr,
          timestamp := now, blockNumber := e.blockNumber,
          transactionHash := e.transactionHash }
      (deferredMetadataRefresh (applyTransferWrites st transfer) transfer.tokenId
        cacheTimeout now fetch,
       none)
  | _ => (st, some (ThrownError.generic "Invalid event arguments"))

/-- The per-event `try/catch` loop of `processBlockRange` (`src/indexer.ts`
lines 153-161): every event in the batch is processed in order; a failure on
one event is recorded and the loop continues with the next.  `fetch i` is the
outcome of the i-th event's deferred metadata fetch. -/
def processEventBatch (st : IndexerState) (events : List RawEvent) (now cacheTimeout : Nat)
    (fetch : Nat → MetadataFetchOutcome) : IndexerState × List (Option ThrownError) :=
  match events with
  | [] => (st, [])
  | e :: rest =>
      let r := processTransferEvent st e now cacheTimeout (fetch 0)
      let rr := processEventBatch r.1 rest now cacheTimeout (fun i => fetch (i + 1))
      (rr.1, r.2 :: rr.2)

/-- A state with an empty store and empty caches. -/
def emptyIndexerState : IndexerState :=
  { db := { owners := fun _ => none, transfers := fun _ => none,
            ownerTokens := fun _ => none, metadata := fun _ => none }
    ownershipCache := fun _ => none
    metadataCache := fun _ => none }

theorem putOwnership_of_already (st : LevelState) (tokenId owner : String) (ts : Nat)
    (h : st.owners tokenId = some { tokenId := tokenId, owner := owner, timestamp := ts }) :
    putOwnership st tokenId owner ts = st := by
  unfold putOwnership
  ext k
  · by_cases hk : k = tokenId
    · subst hk; simp [h]
    · simp [hk]
  all_goals rfl

theorem addTokenToOwner_of_mem (st : LevelState) (owner tokenId : String)
    (h : tokenId ∈ (st.ownerTokens owner).getD []) :
    addTokenToOwner st owner tokenId = st := by
  unfold addTokenToOwner
  rw [if_pos h]

theorem mem_addTokenToOwner (st : LevelState) (owner tokenId : String) :
    tokenId ∈ ((addTokenToOwner st owner tokenId).ownerTokens owner).getD [] := by
  unfold addTokenToOwner
  by_cases h : tokenId ∈ (st.ownerTokens owner).getD []
  · rw [if_pos h]; exact h
  · rw [if_neg h]
    simp

theorem addTransfer_of_already (st : LevelState) (transfer : TokenTransfer)
    (h : st.transfers
      (transferKey transfer.tokenId transfer.blockNumber transfer.transactionHash) =
      some transfer) :
    addTransfer st transfer = st := by
  unfold addTransfer
  ext k
  · rfl
  · by_cases hk :
      k = transferKey transfer.tokenId transfer.blockNumber transfer.transactionHash
    · subst hk; simp [h]
    · simp [hk]
  all_goals rfl

theorem setTokenOwner_of_already (st : LevelState) (tokenId owner : String) (ts : Nat)
    (h1 : st.owners tokenId = some { tokenId := tokenId, owner := owner, timestamp := ts })
    (h2 : tokenId ∈ (st.ownerTokens owner).getD []) :
    setTokenOwner st tokenId owner ts = st := by
  unfold setTokenOwner
  rw [putOwnership_of_already st tokenId owner ts h1, addTokenToOwner_of_mem st owner tokenId h2]

theorem addTokenToOwner_owners (st : LevelState) (owner tokenId : String) :
    (addTokenToOwner st owner tokenId).owners = st.owners := by
  unfold addTokenToOwner
  split
  · rfl
  · rfl

theorem addTokenToOwner_transfers (st : LevelState) (owner tokenId : String) :
    (addTokenToOwner st owner tokenId).transfers = st.transfers := by
  unfold addTokenToOwner
  split
  · rfl
  · rfl

/-- After `setTokenOwner`, the ownership record for the token is exactly the
one just written. -/
theorem setTokenOwner_owners_self (st : LevelState) (tokenId owner : String) (ts : Nat) :
    (setTokenOwner st tokenId owner ts).owners tokenId =
      some { tokenId := tokenId, owner := owner, timestamp := ts } := by
  unfold setTokenOwner
  rw [addTokenToOwner_owners]
  unfold putOwnership
  simp

/-- After `setTokenOwner`, the owner index at the new owner contains the token. -/
theorem setTokenOwner_ownerTokens_mem (st : LevelState) (tokenId owner : String) (ts : Nat) :
    tokenId ∈ ((setTokenOwner st tokenId owner ts).ownerTokens owner).getD [] := by
  unfold setTokenOwner
  exact mem_addTokenToOwner _ owner tokenId

/-- After `setTokenOwner`, the transfer map is untouched. -/
theorem setTokenOwner_transfers (st : LevelState) (tokenId owner : String) (ts : Nat) :
    (setTokenOwner st tokenId owner ts).transfers = st.transfers := by
  unfold setTokenOwner
  rw [addTokenToOwner_transfers]
  rfl

/-- Applying the same transfer write sequence twice to the store yields the
same store as applying it once. -/
theorem applyTransfer_idem (db : LevelState) (transfer : TokenTransfer) (owner : String)
    (ts : Nat) :
    setTokenOwner (addTransfer (setTokenOwner (addTransfer db transfer)
        transfer.tokenId owner ts) transfer) transfer.tokenId owner ts =
      setTokenOwner (addTransfer db transfer) transfer.tokenId owner ts := by
  have h1 : (setTokenOwner (addTransfer db transfer) transfer.tokenId owner ts).transfers
      (transferKey transfer.tokenId transfer.blockNumber transfer.transactionHash) =
      some transfer := by
    rw [setTokenOwner_transfers]
    unfold addTransfer
    simp
  rw [addTransfer_of_already _ _ h1]
  exact setTokenOwner_of_already _ _ _ _
    (setTokenOwner_owners_self _ _ _ _)
    (setTokenOwner_ownerTokens_mem _ _ _ _)

theorem setTokenMetadata_of_already (st : LevelState) (tokenId : String) (m : TokenMetadata)
    (h : st.metadata tokenId = some m) : setTokenMetadata st tokenId m = st := by
  unfold setTokenMetadata
  ext k
  · rfl
  · rfl
  · rfl
  · by_cases hk : k = tokenId
    · subst hk; simp [h]
    · simp [hk]

/-! `getTokenMetadata` touches only the metadata namespace and the metadata
cache: the ownership record, transfer record, owner index and ownership cache
pass through unchanged. -/

theorem getTokenMetadata_owners (st : IndexerState) (tokenId : String) (ct now : Nat)
    (fetch : MetadataFetchOutcome) :
    (getTokenMetadata st tokenId ct now fetch).1.db.owners = st.db.owners := by
  unfold getTokenMetadata getTokenMetadataFromStore fetchAndStoreMetadata setTokenMetadata
  repeat' split
  all_goals rfl

theorem getTokenMetadata_transfers (st : IndexerState) (tokenId : String) (ct now : Nat)
    (fetch : MetadataFetchOutcome) :
    (getTokenMetadata st tokenId ct now fetch).1.db.transfers = st.db.transfers := by
  unfold getTokenMetadata getTokenMetadataFromStore fetchAndStoreMetadata setTokenMetadata
  repeat' split
  all_goals rfl

theorem getTokenMetadata_ownerTokens (st : IndexerState) (tokenId : String) (ct now : Nat)
    (fetch : MetadataFetchOutcome) :
    (getTokenMetadata st tokenId ct now fetch).1.db.ownerTokens = st.db.ownerTokens := by
  unfold getTokenMetadata getTokenMetadataFromStore fetchAndStoreMetadata setTokenMetadata
  repeat' split
  all_goals rfl

theorem getTokenMetadata_ownershipCache (st : IndexerState) (tokenId : String) (ct now : Nat)
    (fetch : MetadataFetchOutcome) :
    (getTokenMetadata st tokenId ct now fetch).1.ownershipCache = st.ownershipCache := by
  unfold getTokenMetadata getTokenMetadataFromStore fetchAndStoreMetadata setTokenMetadata
  repeat' split
  all_goals rfl

/-! Branch equations of `getTokenMetadata`. -/

theorem getTokenMetadata_cache_fresh (st : IndexerState) (tokenId : String) (ct now : Nat)
    (fetch : MetadataFetchOutcome) (cached : TokenMetadata)
    (hc : st.metadataCache tokenId = some cached)
    (hf : now - cached.lastUpdated < ct) :
    getTokenMetadata st tokenId ct now fetch = (st, Except.ok cached) := by
  unfold getTokenMetadata
  rw [hc]
  exact if_pos hf

theorem getTokenMetadata_cache_cold (st : IndexerState) (tokenId : String) (ct now : Nat)
    (fetch : MetadataFetchOutcome)
    (h : ∀ cached, st.metadataCache tokenId = some cached →
      ¬ (now - cached.lastUpdated < ct)) :
    getTokenMetadata st tokenId ct now fetch =
      getTokenMetadataFromStore st tokenId ct now fetch := by
  unfold getTokenMetadata
  rcases hc : st.metadataCache tokenId with _ | cached
  · rfl
  · exact if_neg (h cached hc)

theorem getTokenMetadataFromStore_fresh (st : IndexerState) (tokenId : String) (ct now : Nat)
    (fetch : MetadataFetchOutcome) (stored : TokenMetadata)
    (hs : st.db.metadata tokenId = some stored)
    (hf : now - stored.lastUpdated < ct) :
    getTokenMetadataFromStore st tokenId ct now fetch =
      ({ st with metadataCache := fun k =>
            if k = tokenId then some stored else st.metadataCache k },
       Except.ok stored) := by
  unfold getTokenMetadataFromStore
  rw [hs]
  exact if_pos hf

theorem getTokenMetadataFromStore_cold (st : IndexerState) (tokenId : String) (ct now : Nat)
    (fetch : MetadataFetchOutcome)
    (h : ∀ stored, st.db.metadata tokenId = some stored →
      ¬ (now - stored.lastUpdated < ct)) :
    getTokenMetadataFromStore st tokenId ct now fetch =
      fetchAndStoreMetadata st tokenId now fetch := by
  unfold getTokenMetadataFromStore
  rcases hs : st.db.metadata tokenId with _ | stored
  · rfl
  · exact if_neg (h stored hs)

/-- A state that already holds, in both the cache and the store, the record
the refresh would produce is a fixed point of `getTokenMetadata`. -/
theorem getTokenMetadata_stable (st : IndexerState) (tokenId : String) (ct now : Nat)
    (fetch : MetadataFetchOutcome) (m : TokenMetadata)
    (hAc : st.metadataCache tokenId = some m)
    (hAs : st.db.metadata tokenId = some m)
    (hup : m.lastUpdated = now)
    (hfid : ∀ uri doc, fetch = MetadataFetchOutcome.fetched uri doc →
      m = { tokenId := tokenId, uri := uri, metadata := doc, lastUpdated := now }) :
    (getTokenMetadata st tokenId ct now fetch).1 = st := by
  by_cases hct : 0 < ct
  · rw [getTokenMetadata_cache_fresh st tokenId ct now fetch m hAc (by rw [hup]; omega)]
  · have hcold : ∀ cached, st.metadataCache tokenId = some cached →
        ¬ (now - cached.lastUpdated < ct) := by
      intro cached hcc
      rw [hAc] at hcc
      injection hcc with hcc
      subst hcc
      rw [hup]
      omega
    have hscold : ∀ stored, st.db.metadata tokenId = some stored →
        ¬ (now - stored.lastUpdated < ct) := by
      intro stored hcc
      rw [hAs] at hcc
      injection hcc with hcc
      subst hcc
      rw [hup]
      omega
    rw [getTokenMetadata_cache_cold st tokenId ct now fetch hcold,
        getTokenMetadataFromStore_cold st tokenId ct now fetch hscold]
    rcases fetch with ⟨uri, doc⟩ | msg
    · have hm := hfid uri doc rfl
      subst hm
      apply IndexerState.ext
      · exact setTokenMetadata_of_already st.db tokenId _ hAs
      · rfl
      · show (fun k =>
            if k = tokenId then
              some { tokenId := tokenId, uri := uri, metadata := doc, lastUpdated := now }
            else st.metadataCache k) = st.metadataCache
        funext k
        by_cases hk : k = tokenId
        · rw [if_pos hk, hk, hAc]
        · rw [if_neg hk]
    · rfl

/-- The deferred metadata refresh is idempotent: rerunning `getTokenMetadata`
on its own result state (same clock, same fetch outcome) changes nothing. -/
theorem getTokenMetadata_idem (st : IndexerState) (tokenId : String) (ct now : Nat)
    (fetch : MetadataFetchOutcome) :
    (getTokenMetadata (getTokenMetadata st tokenId ct now fetch).1 tokenId ct now fetch).1 =
      (getTokenMetadata st tokenId ct now fetch).1 := by
  by_cases hhit : ∃ cached, st.metadataCache tokenId = some cached ∧
      now - cached.lastUpdated < ct
  · obtain ⟨cached, hc, hf⟩ := hhit
    have h1 : (getTokenMetadata st tokenId ct now fetch).1 = st := by
      rw [getTokenMetadata_cache_fresh st tokenId ct now fetch cached hc hf]
    rw [h1]
    exact h1
  · have hcold : ∀ cached, st.metadataCache tokenId = some cached →
        ¬ (now - cached.lastUpdated < ct) :=
      fun cached hcc hlt => hhit ⟨cached, hcc, hlt⟩
    by_cases hstore : ∃ stored, st.db.metadata tokenId = some stored ∧
        now - stored.lastUpdated < ct
    · obtain ⟨stored, hs, hf⟩ := hstore
      have h1 : (getTokenMetadata st tokenId ct now fetch).1 =
          { st with metadataCache := fun k =>
              if k = tokenId then some stored else st.metadataCache k } := by
        rw [getTokenMetadata_cache_cold st tokenId ct now fetch hcold,
            getTokenMetadataFromStore_fresh st tokenId ct now fetch stored hs hf]
      rw [h1]
      rw [getTokenMetadata_cache_fresh
        { st with metadataCache := fun k =>
            if k = tokenId then some stored else st.metadataCache k }
        tokenId ct now fetch stored (by simp) hf]
    · have hscold : ∀ stored, st.db.metadata tokenId = some stored →
          ¬ (now - stored.lastUpdated < ct) :=
        fun stored hcc hlt => hstore ⟨stored, hcc, hlt⟩
      have h1 : getTokenMetadata st tokenId ct now fetch =
          fetchAndStoreMetadata st tokenId now fetch := by
        rw [getTokenMetadata_cache_cold st tokenId ct now fetch hcold,
            getTokenMetadataFromStore_cold st tokenId ct now fetch hscold]
      rw [h1]
      rcases fetch with ⟨uri, doc⟩ | msg
      · exact getTokenMetadata_stable _ tokenId ct now _
          { tokenId := tokenId, uri := uri, metadata := doc, lastUpdated := now }
          (by simp [fetchAndStoreMetadata])
          (by simp [fetchAndStoreMetadata, setTokenMetadata])
          rfl
          (fun u d hd => by
            injection hd with h1 h2
            subst h1
            subst h2
            rfl)
      · show (getTokenMetadata st tokenId ct now (MetadataFetchOutcome.failed msg)).1 = st
        rw [getTokenMetadata_cache_cold st tokenId ct now _ hcold,
            getTokenMetadataFromStore_cold st tokenId ct now _ hscold]
        rfl

/-! The synchronous writes of an accepted event, re-applied to a state that
already carries them, change nothing. -/

theorem applyTransferWrites_transfers_self (st : IndexerState) (transfer : TokenTransfer) :
    (applyTransferWrites st transfer).db.transfers
      (transferKey transfer.tokenId transfer.blockNumber transfer.transactionHash) =
      some transfer := by
  show (setTokenOwner (addTransfer st.db transfer) transfer.tokenId transfer.toAddr
      transfer.timestamp).transfers
      (transferKey transfer.tokenId transfer.blockNumber transfer.transactionHash) =
      some transfer
  rw [setTokenOwner_transfers]
  unfold addTransfer
  simp

theorem applyTransferWrites_owners_self (st : IndexerState) (transfer : TokenTransfer) :
    (applyTransferWrites st transfer).db.owners transfer.tokenId =
      some { tokenId := transfer.tokenId, owner := transfer.toAddr,
             timestamp := transfer.timestamp } := by
  show (setTokenOwner (addTransfer st.db transfer) transfer.tokenId transfer.toAddr
      transfer.timestamp).owners transfer.tokenId = _
  exact setTokenOwner_owners_self _ _ _ _

theorem applyTransferWrites_ownerTokens_mem (st : IndexerState) (transfer : TokenTransfer) :
    transfer.tokenId ∈
      ((applyTransferWrites st transfer).db.ownerTokens transfer.toAddr).getD [] := by
  show transfer.tokenId ∈
    ((setTokenOwner (addTransfer st.db transfer) transfer.tokenId transfer.toAddr
      transfer.timestamp).ownerTokens transfer.toAddr).getD []
  exact setTokenOwner_ownerTokens_mem _ _ _ _

theorem applyTransferWrites_cache_self (st : IndexerState) (transfer : TokenTransfer) :
    (applyTransferWrites st transfer).ownershipCache transfer.tokenId =
      some transfer.toAddr := by
  show (fun k => if k = transfer.tokenId then some transfer.toAddr
      else st.ownershipCache k) transfer.tokenId = some transfer.toAddr
  simp

theorem applyTransferWrites_of_already (st : IndexerState) (transfer : TokenTransfer)
    (h1 : st.db.transfers
      (transferKey transfer.tokenId transfer.blockNumber transfer.transactionHash) =
      some transfer)
    (h2 : st.db.owners transfer.tokenId =
      some { tokenId := transfer.tokenId, owner := transfer.toAddr,
             timestamp := transfer.timestamp })
    (h3 : transfer.tokenId ∈ (st.db.ownerTokens transfer.toAddr).getD [])
    (h4 : st.ownershipCache transfer.tokenId = some transfer.toAddr) :
    applyTransferWrites st transfer = st := by
  apply IndexerState.ext
  · show setTokenOwner (addTransfer st.db transfer) transfer.tokenId transfer.toAddr
      transfer.timestamp = st.db
    rw [addTransfer_of_already st.db transfer h1]
    exact setTokenOwner_of_already st.db transfer.tokenId transfer.toAddr transfer.timestamp
      h2 h3
  · show (fun k => if k = transfer.tokenId then some transfer.toAddr
      else st.ownershipCache k) = st.ownershipCache
    funext k
    by_cases hk : k = transfer.tokenId
    · subst hk; rw [if_pos rfl, h4]
    · rw [if_neg hk]
  · rfl

/-- One accepted event's full pipeline — synchronous writes followed by the
deferred metadata refresh — is idempotent on the state. -/
theorem processAccepted_idem (st : IndexerState) (transfer : TokenTransfer) (ct now : Nat)
    (fetch : MetadataFetchOutcome) :
    (getTokenMetadata (applyTransferWrites
        (getTokenMetadata (applyTransferWrites st transfer) transfer.tokenId ct now fetch).1
        transfer)
      transfer.tokenId ct now fetch).1 =
    (getTokenMetadata (applyTransferWrites st transfer) transfer.tokenId ct now fetch).1 := by
  have hp := getTokenMetadata_transfers (applyTransferWrites st transfer)
    transfer.tokenId ct now fetch
  have hq := getTokenMetadata_owners (applyTransferWrites st transfer)
    transfer.tokenId ct now fetch
  have hr := getTokenMetadata_ownerTokens (applyTransferWrites st transfer)
    transfer.tokenId ct now fetch
  have hsc := getTokenMetadata_ownershipCache (applyTransferWrites st transfer)
    transfer.tokenId ct now fetch
  have hA : applyTransferWrites
      (getTokenMetadata (applyTransferWrites st transfer) transfer.tokenId ct now fetch).1
      transfer =
      (getTokenMetadata (applyTransferWrites st transfer) transfer.tokenId ct now fetch).1 := by
    apply applyTransferWrites_of_already
    · rw [hp]; exact applyTransferWrites_transfers_self st transfer
    · rw [hq]; exact applyTransferWrites_owners_self st transfer
    · rw [hr]; exact applyTransferWrites_ownerTokens_mem st transfer
    · rw [hsc]; exact applyTransferWrites_cache_self st transfer
  rw [hA]
  exact getTokenMetadata_idem (applyTransferWrites st transfer) transfer.tokenId ct now fetch

/-- Every event of a batch gets an outcome: one event's failure never
shortens the processing of the rest (`src/indexer.ts` lines 153-161). -/
theorem processEventBatch_length (st : IndexerState) (events : List RawEvent)
    (now cacheTimeout : Nat) (fetch : Nat → MetadataFetchOutcome) :
    (processEventBatch st events now cacheTimeout fetch).2.length = events.length := by
  induction events generalizing st fetch with
  | nil => rfl
  | cons e rest ih =>
      simp only [processEventBatch, List.length_cons]
      rw [ih]

/-- Claim C5 (counterexample): an event carrying four decoded fields is
accepted by `processTransferEvent` (outcome `none`, no error), although the
claim states that an event with any number of fields other than exactly three
is rejected. -/
theorem claim_C5_counterexample :
    (processTransferEvent emptyIndexerState
      { args := some ["0xaaa", "0xbbb", "7", "extra"], blockNumber := 10,
        transactionHash := "0xhash" } 1000 3600000
      (MetadataFetchOutcome.failed "Metadata fetch timeout")).2 = none ∧
    ["0xaaa", "0xbbb", "7", "extra"].length = 4 :=
  ⟨rfl, rfl⟩

/-- Claim C5 (amended): `processTransferEvent` accepts a raw event iff it
carries at least three decoded fields; otherwise it is rejected with the
plain `Error('Invalid event arguments')` (not an
`IndexerErrorType.INVALID_INPUT` `IndexerError`), the rejection leaves the
state untouched, and the failure is isolated per event (every event of a
batch is processed). -/
theorem claim_C5_validation (st : IndexerState) (e : RawEvent) (now cacheTimeout : Nat)
    (fetch : MetadataFetchOutcome) (events : List RawEvent)
    (fetches : Nat → MetadataFetchOutcome) :
    ((processTransferEvent st e now cacheTimeout fetch).2 = none ↔
      ∃ l, e.args = some l ∧ 3 ≤ l.length) ∧
    ((processTransferEvent st e now cacheTimeout fetch).2 = none ∨
      (processTransferEvent st e now cacheTimeout fetch).2 =
        some (ThrownError.generic "Invalid event arguments")) ∧
    ((processTransferEvent st e now cacheTimeout fetch).2 ≠ none →
      (processTransferEvent st e now cacheTimeout fetch).1 = st) ∧
    (processEventBatch st events now cacheTimeout fetches).2.length = events.length := by
  obtain ⟨args, bn, th⟩ := e
  refine ⟨?_, ?_, ?_, processEventBatch_length st events now cacheTimeout fetches⟩
  · rcases args with _ | l
    · simp [processTransferEvent]
    rcases l with _ | ⟨a, l⟩
    · simp [processTransferEvent]
    rcases l with _ | ⟨b, l⟩
    · simp [processTransferEvent]
    rcases l with _ | ⟨c, rest⟩
    · simp [processTransferEvent]
    · simp only [processTransferEvent]
      constructor
      · intro _
        refine ⟨a :: b :: c :: rest, rfl, ?_⟩
        simp only [List.length_cons]
        omega
      · intro _
        trivial
  · rcases args with _ | l
    · exact Or.inr rfl
    rcases l with _ | ⟨a, l⟩
    · exact Or.inr rfl
    rcases l with _ | ⟨b, l⟩
    · exact Or.inr rfl
    rcases l with _ | ⟨c, rest⟩
    · exact Or.inr rfl
    · exact Or.inl rfl
  · rcases args with _ | l
    · intro _; rfl
    rcases l with _ | ⟨a, l⟩
    · intro _; rfl
    rcases l with _ | ⟨b, l⟩
    · intro _; rfl
    rcases l with _ | ⟨c, rest⟩
    · intro _; rfl
    · intro h
      exact absurd rfl h

/-- Claim C8: applying `processTransferEvent` to the same event twice in
succession (same ingestion clock, same metadata-fetch outcome) leaves the
whole state — ownership record, ownership cache, owner index, transfer
records, metadata store and metadata cache — identical to applying it once;
in particular the second application inserts no duplicate transfer record and
no duplicate tokenId in the owner index, and the deferred metadata refresh it
triggers rewrites nothing. -/
theorem claim_C8_idempotent (st : IndexerState) (e : RawEvent) (now cacheTimeout : Nat)
    (fetch : MetadataFetchOutcome) :
    (processTransferEvent (processTransferEvent st e now cacheTimeout fetch).1 e now
      cacheTimeout fetch).1 =
      (processTransferEvent st e now cacheTimeout fetch).1 := by
  obtain ⟨args, bn, th⟩ := e
  rcases args with _ | l
  · rfl
  rcases l with _ | ⟨a, l⟩
  · rfl
  rcases l with _ | ⟨b, l⟩
  · rfl
  rcases l with _ | ⟨c, rest⟩
  · rfl
  · exact processAccepted_idem st
      { tokenId := c, fromAddr := a, toAddr := b, timestamp := now,
        blockNumber := bn, transactionHash := th } cacheTimeout now fetch

/-! ## The relational (PostgreSQL) variant, `src/db/index.ts` -/

namespace Database

/-- `Database.getLastSyncedBlock` from `src/db/index.ts` lines 101-116, as a
function of the outcome of the `sync_state` select (`Except.error` is any
storage failure: connection, SQL, missing initialization).  The source wraps
the whole body in `try/catch`; the `catch` arm logs the error and
`return 0`. -/
def getLastSyncedBlock (query : Except String (List Nat)) : Except IndexerError Nat :=
  match query with
  | .ok [] => .ok 0
  | .ok (row :: _) => .ok row
  | .error _ => .ok 0

end Database

/-- Claim C6 (counterexample): a storage failure inside the relational
`getLastSyncedBlock` is not surfaced as a `DatabaseError` — the call succeeds
with the substituted default 0. -/
theorem claim_C6_counterexample :
    Database.getLastSyncedBlock (Except.error "connection refused") = Except.ok 0 :=
  rfl

/-- Claim C6 (amended): the relational `getLastSyncedBlock` never fails — on
any storage failure it logs, swallows the error and returns the default last
synced block 0. -/
theorem claim_C6_swallows_failures (query : Except String (List Nat)) :
    (∃ n, Database.getLastSyncedBlock query = Except.ok n) ∧
    (∀ msg, Database.getLastSyncedBlock (Except.error msg) = Except.ok 0) ∧
    (∀ msg, ¬ ∃ err, Database.getLastSyncedBlock (Except.error msg) = Except.error err) := by
  refine ⟨?_, fun msg => rfl, ?_⟩
  · match query with
    | .ok [] => exact ⟨0, rfl⟩
    | .ok (row :: _) => exact ⟨row, rfl⟩
    | .error _ => exact ⟨0, rfl⟩
  · rintro msg ⟨err, h⟩
    exact Except.noConfusion h

/-! ## The live-polling timer, `src/indexer.ts` lines 214-239 -/

/-- The period passed to `setInterval` in `setupEventListeners`
(`src/indexer.ts` line 231): the literal `12000` — the merged configuration's
`pollInterval` is never consulted. -/
def pollTimerPeriodMs (_config : IndexerConfig) : Nat := 12000

/-- Claim C7 (failing input): with a configured `pollInterval` of 5000ms the
merged configuration carries 5000, yet the timer is scheduled at the literal
12000ms — `setInterval(pollNewBlocks, 12000)` ignores the option for every
configuration, not only as a default. -/
theorem claim_C7_poll_interval_hardcoded :
    pollTimerPeriodMs (mergeConfig { pollInterval := some 5000 }) = 12000 ∧
    (mergeConfig { pollInterval := some 5000 }).pollInterval = 5000 ∧
    (∀ config : IndexerConfig, pollTimerPeriodMs config = 12000) ∧
    DEFAULT_CONFIG.pollInterval = 12000 :=
  ⟨rfl, rfl, fun _ => rfl, rfl⟩

end NFTIndexer
